import Mathlib

attribute [local semireducible] Rat.mul Rat.add Rat.inv

/-!
Shallow embedding of the `nil-triggers` heuristic detection library
(`index.js` of the `nil-triggers` package): a word-level tokeniser,
cosine similarity over term-frequency vectors, four conversation
detectors (`detectLoop`, `detectVelocityCollapse`, `detectScopeCreep`,
`detectSaturation`) and the aggregating `check`.

Modelling conventions:
* JS numbers are embedded as exact arithmetic: character counts and
  window sizes as `Nat`, timestamps as `Int` (milliseconds), ratio
  options and averages as `Rat`, and `Math.sqrt` as `Real.sqrt`
  (so `cosineSimilarity` is real-valued).
* `Array.prototype.slice` with negative indices is embedded by explicit
  functions reproducing the JS clamping behaviour, including the
  `-0 === 0` corner (`slice(-0)` is the whole array, `slice(0, -0)` is
  empty).
* The one unguarded float division (`recentAvgLength / earlierAvgLength`
  in `detectScopeCreep`) is embedded by a helper making the IEEE
  behaviour on zero denominators explicit (`0/0` is `NaN`, every
  comparison with `NaN` is false; `x/0` for `x > 0` is `+Infinity`,
  which is `>=` any finite ratio).  The divisions in
  `detectVelocityCollapse` sit behind `> 0` guards on the denominator,
  and a `NaN` average (empty window) fails those guards exactly as the
  rational average `0` does, so plain `Rat` division is faithful there.
* The out-of-bounds element access
  `substantiveResponses[assistantResponseThreshold - 1].timestamp`,
  which throws in JS when the index is `-1`, is embedded by returning
  `Option`: `none` models the thrown `TypeError`.
* Strings are treated over their character lists; `toLowerCase`,
  `\w` and `\s` are modelled on their ASCII behaviour.
-/

inductive Role where
  | user
  | assistant
deriving DecidableEq, BEq, Repr

structure Message where
  role : Role
  content : String
  timestamp : Int
deriving DecidableEq, Repr

/-- ASCII model of the `\w` character class `[A-Za-z0-9_]`. -/
def isWordChar (c : Char) : Bool :=
  c.isAlphanum || c == '_'

/-- ASCII model of the `\s` character class (space, tab, newline,
carriage return, vertical tab, form feed). -/
def isWsChar (c : Char) : Bool :=
  c == ' ' || c == '\t' || c == '\n' || c == '\r' || c.toNat == 11 || c.toNat == 12

/-- A token is a list of characters (one word after normalisation). -/
abbrev Token := List Char

/-- Split a character list on runs of whitespace, discarding empty
pieces: the composition `split(/\s+/).filter(Boolean)` of the source. -/
def splitWsGo : List Char → List Char → List Token
  | [], acc => if acc.isEmpty then [] else [acc.reverse]
  | c :: cs, acc =>
      if isWsChar c then
        (if acc.isEmpty then splitWsGo cs [] else acc.reverse :: splitWsGo cs [])
      else
        splitWsGo cs (c :: acc)

/-- `tokenise`: lowercase, strip every character that is neither a word
character nor whitespace (`replace(/[^\w\s]/g, "")`), split on
whitespace runs and drop empty tokens. -/
def tokenise (text : String) : List Token :=
  splitWsGo ((text.toList.map Char.toLower).filter fun c => isWordChar c || isWsChar c) []

/-- The union of keys of the two term-frequency maps, in first-seen
order: `new Set([...Object.keys(a), ...Object.keys(b)])`. -/
def allKeys (tokensA tokensB : List Token) : List Token :=
  (tokensA ++ tokensB).dedup

/-- The dot product accumulated over the key union. -/
def dotProd (tokensA tokensB : List Token) : Nat :=
  ((allKeys tokensA tokensB).map fun t => tokensA.count t * tokensB.count t).sum

/-- A squared Euclidean norm accumulated over a key list
(`magA += va * va` over `allKeys`). -/
def magSqOver (keys : List Token) (tokens : List Token) : Nat :=
  (keys.map fun t => (tokens.count t) ^ 2).sum

/-- `cosineSimilarity`: dot product over the product of the Euclidean
norms of the two term-frequency vectors, with the zero-denominator case
defined as `0` (the `denom === 0 ? 0 : dot / denom` guard). -/
noncomputable def cosineSimilarity (tokensA tokensB : List Token) : ℝ :=
  let dot : ℝ := (dotProd tokensA tokensB : ℝ)
  let magA : ℝ := (magSqOver (allKeys tokensA tokensB) tokensA : ℝ)
  let magB : ℝ := (magSqOver (allKeys tokensA tokensB) tokensB : ℝ)
  let denom := Real.sqrt magA * Real.sqrt magB
  if denom = 0 then 0 else dot / denom

/-- JS `arr.slice(-n)`: the trailing `n` elements, except that
`slice(-0)` is `slice(0)`, the whole array. -/
def sliceLast (n : Nat) (l : List α) : List α :=
  if n = 0 then l else l.drop (l.length - n)

/-- JS `arr.slice(0, -n)`: everything but the trailing `n` elements,
except that `slice(0, -0)` is `slice(0, 0)`, the empty array. -/
def sliceDropLast (n : Nat) (l : List α) : List α :=
  if n = 0 then [] else l.take (l.length - n)

/-- JS `arr.slice(-2*n, -n)` (the "earlier" window of `detectScopeCreep`):
elements from `max(len-2n, 0)` up to `max(len-n, 0)`, except that both
bounds are `0` when `n = 0`. -/
def sliceWindowBefore (n : Nat) (l : List α) : List α :=
  if n = 0 then [] else (l.take (l.length - n)).drop (l.length - 2 * n)

/-- JS element access `arr[i]` for a possibly negative integer index:
out-of-range indices give `undefined`, modelled as `none`. -/
def jsIndex (l : List α) (i : Int) : Option α :=
  if h : 0 ≤ i ∧ i.toNat < l.length then some (l.get ⟨i.toNat, h.2⟩) else none

/-- The trailing `n` elements of a list (`[]` when `n = 0`): the
mathematical "last `n`" window used by specification-level statements. -/
def lastWindow (n : Nat) (l : List α) : List α :=
  l.drop (l.length - n)

/-- Arithmetic mean of a list of rationals; the empty list gives `0`
(in the embedding `0 / 0 = 0`, and every use either sits behind a
`> 0` guard on this value — which a JS `NaN` fails just as `0` does —
or goes through `jsAvgRatioGE`, which handles emptiness itself). -/
def listMean (l : List ℚ) : ℚ :=
  l.sum / (l.length : ℚ)

/-- IEEE model of the unguarded float comparison
`mean(num) / mean(den) >= r` on lists of nonnegative rationals:
an empty window has mean `NaN` and every `NaN` comparison is false;
a zero denominator mean gives `NaN` (false) when the numerator mean is
zero and `+Infinity` (true, for any finite `r`) when it is positive. -/
def jsAvgRatioGE (num den : List ℚ) (r : ℚ) : Bool :=
  if num.isEmpty || den.isEmpty then false
  else if listMean den = 0 then decide (0 < listMean num)
  else decide (r ≤ listMean num / listMean den)

/-- `getGaps`: differences of consecutive timestamps. -/
def getGaps (messages : List Message) : List Int :=
  (messages.zip messages.tail).map fun p => p.2.timestamp - p.1.timestamp

structure LoopOptions where
  threshold : Nat := 3
  similarityFloor : ℚ := 6 / 10
deriving DecidableEq, Repr

structure VelocityOptions where
  lengthDropRatio : ℚ := 3 / 10
  frequencyDropRatio : ℚ := 3
  windowSize : Nat := 4
deriving DecidableEq, Repr

structure ScopeCreepOptions where
  windowSize : Nat := 5
  growthRatio : ℚ := 3 / 2
deriving DecidableEq, Repr

def defaultRequestPatterns : List String :=
  ["can you also", "what about", "another", "more", "one more",
   "anything else", "what else", "give me", "how about", "and also",
   "additionally"]

structure SaturationOptions where
  assistantResponseThreshold : Nat := 3
  minAssistantLength : Nat := 200
  requestPatterns : List String := defaultRequestPatterns
deriving DecidableEq, Repr

structure CheckOptions where
  loop : LoopOptions := {}
  velocityCollapse : VelocityOptions := {}
  scopeCreep : ScopeCreepOptions := {}
  saturation : SaturationOptions := {}
deriving DecidableEq, Repr

structure Result where
  triggered : Bool
  signals : List String
deriving DecidableEq, Repr

/-- The user-authored subsequence of a conversation
(`messages.filter((m) => m.role === "user")`). -/
def userMsgs (messages : List Message) : List Message :=
  messages.filter fun m => m.role == Role.user

/-- The substantive assistant messages of `detectSaturation`
(`m.role === "assistant" && m.content.length >= minAssistantLength`). -/
def substantiveMsgs (messages : List Message) (options : SaturationOptions) : List Message :=
  messages.filter fun m =>
    m.role == Role.assistant && options.minAssistantLength ≤ m.content.length

/-- `detectLoop`: take the last `threshold + 1` user messages, require
at least `threshold` of them, and fire iff the cosine similarity of
every consecutive pair among the last `threshold` reaches
`similarityFloor`. -/
noncomputable def detectLoop (messages : List Message) (options : LoopOptions := {}) : Bool :=
  let userMessages := sliceLast (options.threshold + 1) (userMsgs messages)
  if userMessages.length < options.threshold then false
  else
    let recent := sliceLast options.threshold userMessages
    let similarities := ((recent.zip recent.tail).map fun p =>
      cosineSimilarity (tokenise p.1.content) (tokenise p.2.content))
    decide (∀ s ∈ similarities, (options.similarityFloor : ℝ) ≤ s)

/-- `detectVelocityCollapse`: with at least `windowSize * 2` user
messages, fire on a length collapse (guarded mean-ratio `<=
lengthDropRatio`), else on a frequency collapse (guarded mean-gap ratio
`>= frequencyDropRatio`), else not at all. -/
def detectVelocityCollapse (messages : List Message) (options : VelocityOptions := {}) : Bool :=
  let userMessages := userMsgs messages
  if userMessages.length < options.windowSize * 2 then false
  else
    let earlier := sliceDropLast options.windowSize userMessages
    let recent := sliceLast options.windowSize userMessages
    let earlierAvgLength := listMean (earlier.map fun m => (m.content.length : ℚ))
    let recentAvgLength := listMean (recent.map fun m => (m.content.length : ℚ))
    if 0 < earlierAvgLength ∧ recentAvgLength / earlierAvgLength ≤ options.lengthDropRatio then
      true
    else
      let earlierGaps := getGaps earlier
      let recentGaps := getGaps recent
      if earlierGaps.length = 0 ∨ recentGaps.length = 0 then false
      else
        let earlierAvgGap := listMean (earlierGaps.map fun g => (g : ℚ))
        let recentAvgGap := listMean (recentGaps.map fun g => (g : ℚ))
        if 0 < earlierAvgGap ∧ options.frequencyDropRatio ≤ recentAvgGap / earlierAvgGap then
          true
        else false

/-- `detectScopeCreep`: with at least `windowSize * 2` user messages,
fire iff the unguarded float comparison `recentAvg / earlierAvg >=
growthRatio` holds (IEEE semantics via `jsAvgRatioGE`) and the recent
window has at least as many question-mark messages as the earlier one. -/
def detectScopeCreep (messages : List Message) (options : ScopeCreepOptions := {}) : Bool :=
  let userMessages := userMsgs messages
  if userMessages.length < options.windowSize * 2 then false
  else
    let earlier := sliceWindowBefore options.windowSize userMessages
    let recent := sliceLast options.windowSize userMessages
    if jsAvgRatioGE (recent.map fun m => (m.content.length : ℚ))
        (earlier.map fun m => (m.content.length : ℚ)) options.growthRatio then
      let recentQuestions := (recent.filter fun m => m.content.toList.contains '?').length
      let earlierQuestions := (earlier.filter fun m => m.content.toList.contains '?').length
      decide (earlierQuestions ≤ recentQuestions)
    else false

/-- Does `hay` start with `needle`?  Model of the initial-position case
of `String.prototype.includes`. -/
def startsWithCh : List Char → List Char → Bool
  | _, [] => true
  | [], _ :: _ => false
  | a :: as, b :: bs => a == b && startsWithCh as bs

/-- Model of `hay.includes(needle)`: `needle` occurs contiguously at
some position of `hay`. -/
def containsCh : List Char → List Char → Bool
  | [], needle => startsWithCh [] needle
  | hay@(_ :: t), needle => startsWithCh hay needle || containsCh t needle

/-- `detectSaturation`: require `assistantResponseThreshold` substantive
assistant messages; fire iff at least two user messages strictly after
the threshold-th of them contain a request pattern (lowercased substring
search).  `none` models the `TypeError` thrown by
`substantiveResponses[-1].timestamp` when the threshold is `0`. -/
def detectSaturation (messages : List Message) (options : SaturationOptions := {}) : Option Bool :=
  let substantiveResponses := substantiveMsgs messages options
  if substantiveResponses.length < options.assistantResponseThreshold then some false
  else
    match jsIndex substantiveResponses ((options.assistantResponseThreshold : Int) - 1) with
    | none => none
    | some thresholdMsg =>
      let thresholdTimestamp := thresholdMsg.timestamp
      let userMessagesAfterThreshold := messages.filter fun m =>
        m.role == Role.user && thresholdTimestamp < m.timestamp
      if userMessagesAfterThreshold.length = 0 then some false
      else
        let requestingMore := userMessagesAfterThreshold.filter fun m =>
          options.requestPatterns.any fun pattern =>
            containsCh (m.content.toList.map Char.toLower) pattern.toList
        some (decide (2 ≤ requestingMore.length))

/-- `check`: run the four detectors in order, collect the tags of those
that fired; `none` when `detectSaturation` throws. -/
noncomputable def check (messages : List Message) (options : CheckOptions := {}) : Option Result :=
  match detectSaturation messages options.saturation with
  | none => none
  | some sat =>
    let signals :=
      (if detectLoop messages options.loop then ["loop"] else []) ++
      (if detectVelocityCollapse messages options.velocityCollapse then ["velocity-collapse"] else []) ++
      (if detectScopeCreep messages options.scopeCreep then ["scope-creep"] else []) ++
      (if sat then ["saturation"] else [])
    some { triggered := decide (0 < signals.length), signals := signals }

/-! Specification-level windows and statistics, used to state the
contracts of the detectors independently of the slice-of-slice
computations of the source. -/

/-- The last `w` user messages of a conversation. -/
def recentUserWindow (w : Nat) (messages : List Message) : List Message :=
  lastWindow w (userMsgs messages)

/-- All user messages before the last `w` (the "earlier" group of
`detectVelocityCollapse`). -/
def earlierUserWindow (w : Nat) (messages : List Message) : List Message :=
  (userMsgs messages).take ((userMsgs messages).length - w)

/-- The `w` user messages immediately preceding the last `w` (the
"earlier" window of `detectScopeCreep`). -/
def scopeEarlierWindow (w : Nat) (messages : List Message) : List Message :=
  lastWindow w ((userMsgs messages).take ((userMsgs messages).length - w))

/-- Mean character length of the contents of a group of messages. -/
def meanContentLength (l : List Message) : ℚ :=
  listMean (l.map fun m => (m.content.length : ℚ))

/-- Mean consecutive-timestamp gap within a group of messages. -/
def meanGap (l : List Message) : ℚ :=
  listMean ((getGaps l).map fun g => (g : ℚ))

/-- How many messages of a group contain a question mark. -/
def questionCount (l : List Message) : Nat :=
  (l.filter fun m => m.content.toList.contains '?').length

/-- The length check of `detectVelocityCollapse`: guarded positive
earlier mean, and recent-to-earlier mean-length ratio at most
`lengthDropRatio`. -/
def velLengthTrigger (messages : List Message) (o : VelocityOptions) : Prop :=
  0 < meanContentLength (earlierUserWindow o.windowSize messages) ∧
  meanContentLength (recentUserWindow o.windowSize messages) /
      meanContentLength (earlierUserWindow o.windowSize messages) ≤ o.lengthDropRatio

/-- The frequency check of `detectVelocityCollapse`: both groups have a
gap, the earlier mean gap is positive, and the recent-to-earlier
mean-gap ratio is at least `frequencyDropRatio`. -/
def velFreqTrigger (messages : List Message) (o : VelocityOptions) : Prop :=
  getGaps (earlierUserWindow o.windowSize messages) ≠ [] ∧
  getGaps (recentUserWindow o.windowSize messages) ≠ [] ∧
  0 < meanGap (earlierUserWindow o.windowSize messages) ∧
  o.frequencyDropRatio ≤ meanGap (recentUserWindow o.windowSize messages) /
      meanGap (earlierUserWindow o.windowSize messages)

/-- How many user messages with a timestamp strictly after `ts` contain
one of the configured request patterns (lowercased substring search):
the `requestingMore` count of `detectSaturation`. -/
def moreRequestCount (messages : List Message) (options : SaturationOptions) (ts : Int) : Nat :=
  ((messages.filter fun m => m.role == Role.user && ts < m.timestamp).filter fun m =>
    options.requestPatterns.any fun pattern =>
      containsCh (m.content.toList.map Char.toLower) pattern.toList).length

/-! Concrete conversations used by witnesses and counterexamples. -/

/-- Ten user messages with empty content: both scope-creep windows have
mean length `0`, so the unguarded ratio comparison is `NaN >= 1.5`. -/
def emptyTenConv : List Message :=
  [⟨Role.user, "", 0⟩, ⟨Role.user, "", 1⟩, ⟨Role.user, "", 2⟩, ⟨Role.user, "", 3⟩,
   ⟨Role.user, "", 4⟩, ⟨Role.user, "", 5⟩, ⟨Role.user, "", 6⟩, ⟨Role.user, "", 7⟩,
   ⟨Role.user, "", 8⟩, ⟨Role.user, "", 9⟩]

/-- Five empty then five non-empty user messages: the earlier
scope-creep window has mean length `0` while the recent one does not,
so the unguarded ratio comparison is `Infinity >= 1.5`. -/
def zeroDivConv : List Message :=
  [⟨Role.user, "", 0⟩, ⟨Role.user, "", 1⟩, ⟨Role.user, "", 2⟩, ⟨Role.user, "", 3⟩,
   ⟨Role.user, "", 4⟩, ⟨Role.user, "aaaa", 5⟩, ⟨Role.user, "aaaa", 6⟩,
   ⟨Role.user, "aaaa", 7⟩, ⟨Role.user, "aaaa", 8⟩, ⟨Role.user, "aaaa", 9⟩]

/-- The loop scenario of the specification: three near-identical rewrite
requests interleaved with assistant replies. -/
def loopConv : List Message :=
  [⟨Role.user, "Rewrite the intro paragraph", 0⟩,
   ⟨Role.assistant, "Here is a rewrite.", 30⟩,
   ⟨Role.user, "Rewrite the intro paragraph differently", 60⟩,
   ⟨Role.assistant, "Another version.", 90⟩,
   ⟨Role.user, "Rewrite the intro paragraph again please", 120⟩]

/-- Eight user messages whose length collapses from 20 characters to 1. -/
def velocityConv : List Message :=
  [⟨Role.user, "aaaaaaaaaaaaaaaaaaaa", 0⟩, ⟨Role.user, "aaaaaaaaaaaaaaaaaaaa", 10⟩,
   ⟨Role.user, "aaaaaaaaaaaaaaaaaaaa", 20⟩, ⟨Role.user, "aaaaaaaaaaaaaaaaaaaa", 30⟩,
   ⟨Role.user, "a", 40⟩, ⟨Role.user, "a", 50⟩, ⟨Role.user, "a", 60⟩, ⟨Role.user, "a", 70⟩]

/-- Ten user messages whose length grows by the growth ratio and whose
question count does not decrease. -/
def growthConv : List Message :=
  [⟨Role.user, "hi", 0⟩, ⟨Role.user, "hi", 1⟩, ⟨Role.user, "hi", 2⟩, ⟨Role.user, "hi", 3⟩,
   ⟨Role.user, "hi", 4⟩, ⟨Role.user, "ok?", 5⟩, ⟨Role.user, "ok?", 6⟩, ⟨Role.user, "ok?", 7⟩,
   ⟨Role.user, "ok?", 8⟩, ⟨Role.user, "ok?", 9⟩]

/-- One substantive assistant reply followed by two more-requests. -/
def saturationConv : List Message :=
  [⟨Role.assistant, "hello there", 0⟩,
   ⟨Role.user, "more please", 1⟩,
   ⟨Role.user, "what about the rest", 2⟩]

/-- Saturation options with a low threshold and length floor. -/
def saturationOpts : SaturationOptions :=
  { assistantResponseThreshold := 1, minAssistantLength := 1 }

/-- A conversation with one user and one assistant message. -/
def mixedConv : List Message :=
  [⟨Role.user, "hello there", 0⟩, ⟨Role.assistant, "hi!", 5⟩]

/-- The same conversation with the assistant message removed. -/
def userOnlyConv : List Message :=
  [⟨Role.user, "hello there", 0⟩]

/-- A single user message. -/
def oneUserConv : List Message :=
  [⟨Role.user, "hello", 0⟩]

/-! Helper lemmas. -/

theorem sliceLast_of_ne_zero {n : Nat} (hn : n ≠ 0) (l : List α) :
    sliceLast n l = lastWindow n l := by
  unfold sliceLast lastWindow
  rw [if_neg hn]

theorem lastWindow_zero (l : List α) : lastWindow 0 l = [] := by
  simp [lastWindow]

theorem lastWindow_length (n : Nat) (l : List α) :
    (lastWindow n l).length = l.length - (l.length - n) := by
  simp [lastWindow]

theorem lastWindow_lastWindow (t : Nat) (l : List α) :
    lastWindow t (lastWindow (t + 1) l) = lastWindow t l := by
  unfold lastWindow
  rw [List.drop_drop]
  congr 1
  simp only [List.length_drop]
  omega

theorem zip_tail_nil_of_short {l : List α} (h : l.length ≤ 1) :
    l.zip l.tail = [] := by
  match l, h with
  | [], _ => rfl
  | [a], _ => rfl

theorem chain_of_length_le_one (R : α → α → Prop) {l : List α} (h : l.length ≤ 1) :
    List.Chain' R l := by
  match l, h with
  | [], _ => exact List.chain'_nil
  | [a], _ => exact List.chain'_singleton a

theorem forall_zip_tail_iff (R : α → α → Prop) (l : List α) :
    (∀ p ∈ l.zip l.tail, R p.1 p.2) ↔ List.Chain' R l := by
  induction l with
  | nil => simp
  | cons a t ih =>
    cases t with
    | nil => simp
    | cons b t2 =>
      rw [List.tail_cons, List.zip_cons_cons, List.chain'_cons]
      simp only [List.mem_cons, forall_eq_or_imp]
      rw [← ih]
      rfl

theorem listMean_nonneg {l : List ℚ} (h : ∀ x ∈ l, 0 ≤ x) : 0 ≤ listMean l := by
  unfold listMean
  exact div_nonneg (List.sum_nonneg h) (Nat.cast_nonneg _)

theorem meanContentLength_nonneg (l : List Message) : 0 ≤ meanContentLength l := by
  unfold meanContentLength
  refine listMean_nonneg fun x hx => ?_
  rcases List.mem_map.mp hx with ⟨m, _, rfl⟩
  positivity

/-! Cosine similarity lemmas. -/

theorem cosineSimilarity_eq_zero (tokensA tokensB : List Token)
    (h : magSqOver (allKeys tokensA tokensB) tokensA = 0 ∨
         magSqOver (allKeys tokensA tokensB) tokensB = 0) :
    cosineSimilarity tokensA tokensB = 0 := by
  unfold cosineSimilarity
  rcases h with h | h <;> simp [h]

theorem le_cosineSimilarity_iff (tokensA tokensB : List Token) (f : ℚ)
    (hA : magSqOver (allKeys tokensA tokensB) tokensA ≠ 0)
    (hB : magSqOver (allKeys tokensA tokensB) tokensB ≠ 0) :
    ((f : ℝ) ≤ cosineSimilarity tokensA tokensB) ↔
      (f ≤ 0 ∨
       f ^ 2 * ((magSqOver (allKeys tokensA tokensB) tokensA : ℚ) *
         (magSqOver (allKeys tokensA tokensB) tokensB : ℚ)) ≤ (dotProd tokensA tokensB : ℚ) ^ 2) := by
  have hA' : (0 : ℝ) < (magSqOver (allKeys tokensA tokensB) tokensA : ℝ) := by
    exact_mod_cast Nat.pos_of_ne_zero hA
  have hB' : (0 : ℝ) < (magSqOver (allKeys tokensA tokensB) tokensB : ℝ) := by
    exact_mod_cast Nat.pos_of_ne_zero hB
  unfold cosineSimilarity
  simp only []
  set sA := Real.sqrt (magSqOver (allKeys tokensA tokensB) tokensA : ℝ) with hsA
  set sB := Real.sqrt (magSqOver (allKeys tokensA tokensB) tokensB : ℝ) with hsB
  have hdenom : 0 < sA * sB := mul_pos (Real.sqrt_pos.mpr hA') (Real.sqrt_pos.mpr hB')
  have hsq : (sA * sB) ^ 2 = (magSqOver (allKeys tokensA tokensB) tokensA : ℝ) *
      (magSqOver (allKeys tokensA tokensB) tokensB : ℝ) := by
    rw [hsA, hsB, mul_pow, Real.sq_sqrt hA'.le, Real.sq_sqrt hB'.le]
  rw [if_neg hdenom.ne', le_div_iff₀ hdenom]
  constructor
  · intro hfd
    by_cases hf : f ≤ 0
    · exact Or.inl hf
    · right
      push_neg at hf
      have hf' : (0 : ℝ) < (f : ℝ) := by exact_mod_cast hf
      have h1 : (0 : ℝ) ≤ (f : ℝ) * (sA * sB) := mul_nonneg hf'.le hdenom.le
      have h2 := pow_le_pow_left₀ h1 hfd 2
      rw [mul_pow, hsq] at h2
      exact_mod_cast h2
  · intro h
    have htriv : ∀ hf : (f : ℝ) ≤ 0, (f : ℝ) * (sA * sB) ≤ (dotProd tokensA tokensB : ℝ) :=
      fun hf => (mul_nonpos_of_nonpos_of_nonneg hf hdenom.le).trans (Nat.cast_nonneg _)
    rcases h with hf | hle
    · exact htriv (by exact_mod_cast hf)
    · by_cases hf : (f : ℝ) ≤ 0
      · exact htriv hf
      · push_neg at hf
        have hle' : ((f : ℝ) * (sA * sB)) ^ 2 ≤ (dotProd tokensA tokensB : ℝ) ^ 2 := by
          rw [mul_pow, hsq]
          exact_mod_cast hle
        exact le_of_pow_le_pow_left₀ (by norm_num) (Nat.cast_nonneg _) hle'

theorem detectLoop_iff (messages : List Message) (o : LoopOptions) :
    detectLoop messages o = true ↔
      (o.threshold ≤ (userMsgs messages).length ∧
       List.Chain' (fun a b => (o.similarityFloor : ℝ) ≤
           cosineSimilarity (tokenise a.content) (tokenise b.content))
         (lastWindow o.threshold (userMsgs messages))) := by
  simp only [detectLoop]
  rw [sliceLast_of_ne_zero (Nat.succ_ne_zero o.threshold)]
  have hglen : (lastWindow (o.threshold + 1) (userMsgs messages)).length < o.threshold ↔
      (userMsgs messages).length < o.threshold := by
    rw [lastWindow_length]
    omega
  rcases Nat.eq_zero_or_pos o.threshold with ht | ht
  · rw [ht]
    rw [if_neg (Nat.not_lt_zero _), decide_eq_true_eq]
    constructor
    · intro _
      refine ⟨Nat.zero_le _, ?_⟩
      rw [lastWindow_zero]
      exact List.chain'_nil
    · intro _ s hs
      rw [sliceLast, if_pos rfl] at hs
      rw [zip_tail_nil_of_short (l := lastWindow (0 + 1) (userMsgs messages))
        (by rw [lastWindow_length]; omega)] at hs
      simp at hs
  · rw [sliceLast_of_ne_zero (by omega : o.threshold ≠ 0), lastWindow_lastWindow]
    by_cases hg : (userMsgs messages).length < o.threshold
    · rw [if_pos (hglen.mpr hg)]
      constructor
      · intro hfalse
        exact absurd hfalse (by decide)
      · rintro ⟨hle, -⟩
        exact absurd hle (by omega)
    · rw [if_neg (fun hc => hg (hglen.mp hc)), decide_eq_true_eq]
      have hiff := forall_zip_tail_iff
        (fun a b => (o.similarityFloor : ℝ) ≤
          cosineSimilarity (tokenise a.content) (tokenise b.content))
        (lastWindow o.threshold (userMsgs messages))
      constructor
      · intro hall
        refine ⟨by omega, hiff.mp ?_⟩
        intro p hp
        exact hall _ (List.mem_map.mpr ⟨p, hp, rfl⟩)
      · rintro ⟨-, hchain⟩ s hs
        rcases List.mem_map.mp hs with ⟨p, hp, rfl⟩
        exact hiff.mpr hchain p hp

theorem jsAvgRatioGE_iff {num den : List ℚ} (r : ℚ)
    (hnum : num ≠ []) (hden : den ≠ []) (h0 : 0 ≤ listMean den) :
    jsAvgRatioGE num den r = true ↔
      ((listMean den = 0 ∧ 0 < listMean num) ∨
       (0 < listMean den ∧ r * listMean den ≤ listMean num)) := by
  unfold jsAvgRatioGE
  rw [if_neg (by simp [hnum, hden])]
  by_cases hz : listMean den = 0
  · rw [if_pos hz, decide_eq_true_eq]
    simp [hz, lt_irrefl]
  · rw [if_neg hz, decide_eq_true_eq]
    have hpos : 0 < listMean den := lt_of_le_of_ne h0 (Ne.symm hz)
    rw [le_div_iff₀ hpos]
    constructor
    · intro h
      exact Or.inr ⟨hpos, h⟩
    · rintro (⟨h, -⟩ | ⟨-, h⟩)
      · exact absurd h hz
      · exact h

theorem detectSaturation_isSome (messages : List Message) (o : SaturationOptions)
    (h : 1 ≤ o.assistantResponseThreshold) :
    (detectSaturation messages o).isSome = true := by
  unfold detectSaturation
  simp only []
  by_cases hg : (substantiveMsgs messages o).length < o.assistantResponseThreshold
  · rw [if_pos hg]
    rfl
  · rw [if_neg hg]
    have hidx : 0 ≤ (o.assistantResponseThreshold : Int) - 1 ∧
        ((o.assistantResponseThreshold : Int) - 1).toNat < (substantiveMsgs messages o).length := by
      omega
    rw [jsIndex, dif_pos hidx]
    split
    · rename_i heq
      exact absurd heq (by simp)
    · split <;> rfl

theorem detectVelocityCollapse_iff (messages : List Message) (o : VelocityOptions)
    (hw : 1 ≤ o.windowSize) :
    detectVelocityCollapse messages o = true ↔
      (o.windowSize * 2 ≤ (userMsgs messages).length ∧
       (velLengthTrigger messages o ∨
        (¬ velLengthTrigger messages o ∧ velFreqTrigger messages o))) := by
  have hw0 : o.windowSize ≠ 0 := by omega
  have he : sliceDropLast o.windowSize (userMsgs messages) =
      earlierUserWindow o.windowSize messages := by
    unfold sliceDropLast earlierUserWindow
    rw [if_neg hw0]
  have hr : sliceLast o.windowSize (userMsgs messages) =
      recentUserWindow o.windowSize messages := by
    unfold recentUserWindow
    exact sliceLast_of_ne_zero hw0 _
  simp only [detectVelocityCollapse, he, hr, velLengthTrigger, velFreqTrigger,
    meanContentLength, meanGap]
  split_ifs with h1 h2 h3 h4
  · exact iff_of_false (by simp) fun h => absurd h.1 (by omega)
  · exact iff_of_true rfl ⟨by omega, Or.inl h2⟩
  · refine iff_of_false (by simp) ?_
    rintro ⟨-, hlt | ⟨-, hne1, hne2, -⟩⟩
    · exact h2 hlt
    · rcases h3 with h3 | h3
      · exact hne1 (List.length_eq_zero.mp h3)
      · exact hne2 (List.length_eq_zero.mp h3)
  · refine iff_of_true rfl ⟨by omega, Or.inr ⟨h2, ?_, ?_, h4.1, h4.2⟩⟩
    · intro hnil
      exact h3 (Or.inl (by rw [hnil]; rfl))
    · intro hnil
      exact h3 (Or.inr (by rw [hnil]; rfl))
  · refine iff_of_false (by simp) ?_
    rintro ⟨-, hlt | ⟨-, -, -, hpos, hle⟩⟩
    · exact h2 hlt
    · exact h4 ⟨hpos, hle⟩

theorem detectScopeCreep_iff (messages : List Message) (o : ScopeCreepOptions)
    (hw : 1 ≤ o.windowSize) :
    detectScopeCreep messages o = true ↔
      (o.windowSize * 2 ≤ (userMsgs messages).length ∧
       ((meanContentLength (scopeEarlierWindow o.windowSize messages) = 0 ∧
         0 < meanContentLength (recentUserWindow o.windowSize messages)) ∨
        (0 < meanContentLength (scopeEarlierWindow o.windowSize messages) ∧
         o.growthRatio * meanContentLength (scopeEarlierWindow o.windowSize messages) ≤
           meanContentLength (recentUserWindow o.windowSize messages))) ∧
       questionCount (scopeEarlierWindow o.windowSize messages) ≤
         questionCount (recentUserWindow o.windowSize messages)) := by
  have hw0 : o.windowSize ≠ 0 := by omega
  have he : sliceWindowBefore o.windowSize (userMsgs messages) =
      scopeEarlierWindow o.windowSize messages := by
    unfold sliceWindowBefore scopeEarlierWindow lastWindow
    rw [if_neg hw0]
    congr 1
    rw [List.length_take]
    omega
  have hr : sliceLast o.windowSize (userMsgs messages) =
      recentUserWindow o.windowSize messages := by
    unfold recentUserWindow
    exact sliceLast_of_ne_zero hw0 _
  simp only [detectScopeCreep, he, hr, meanContentLength, questionCount]
  by_cases h1 : (userMsgs messages).length < o.windowSize * 2
  · rw [if_pos h1]
    exact iff_of_false (by simp) fun h => absurd h.1 (by omega)
  · rw [if_neg h1]
    have hel : (scopeEarlierWindow o.windowSize messages).length = o.windowSize := by
      unfold scopeEarlierWindow
      rw [lastWindow_length, List.length_take]
      omega
    have hrl : (recentUserWindow o.windowSize messages).length = o.windowSize := by
      unfold recentUserWindow
      rw [lastWindow_length]
      omega
    have hne1 : (recentUserWindow o.windowSize messages).map
        (fun m => (m.content.length : ℚ)) ≠ [] := by
      intro hcon
      have hlen := congrArg List.length hcon
      rw [List.length_map, hrl] at hlen
      exact hw0 hlen
    have hne2 : (scopeEarlierWindow o.windowSize messages).map
        (fun m => (m.content.length : ℚ)) ≠ [] := by
      intro hcon
      have hlen := congrArg List.length hcon
      rw [List.length_map, hel] at hlen
      exact hw0 hlen
    have hnn : 0 ≤ listMean ((scopeEarlierWindow o.windowSize messages).map
        (fun m => (m.content.length : ℚ))) := by
      refine listMean_nonneg fun x hx => ?_
      rcases List.mem_map.mp hx with ⟨m, -, rfl⟩
      positivity
    have hjiff := jsAvgRatioGE_iff o.growthRatio hne1 hne2 hnn
    split_ifs with hj
    · rw [decide_eq_true_eq]
      constructor
      · intro hq
        exact ⟨by omega, hjiff.mp hj, hq⟩
      · rintro ⟨-, -, hq⟩
        exact hq
    · refine iff_of_false (by simp) ?_
      rintro ⟨-, hcond, -⟩
      exact hj (hjiff.mpr hcond)

/-! Claim theorems. -/

/-- C1: `detectLoop` returns false when fewer than `threshold` user
messages exist in the whole conversation; otherwise it returns true iff
the cosine similarity over tokenised content of every consecutive pair
among the last `threshold` user messages meets or exceeds
`similarityFloor`. -/
theorem detectLoop_matches_spec (messages : List Message) (o : LoopOptions) :
    detectLoop messages o = true ↔
      (o.threshold ≤ (userMsgs messages).length ∧
       List.Chain' (fun a b => (o.similarityFloor : ℝ) ≤
           cosineSimilarity (tokenise a.content) (tokenise b.content))
         (lastWindow o.threshold (userMsgs messages))) :=
  detectLoop_iff messages o

/-- C5: with fewer than `windowSize * 2` user messages
`detectVelocityCollapse` is false; otherwise it triggers on the guarded
length check, or — only when the length check did not trigger — on the
guarded frequency check, and otherwise returns false. -/
theorem detectVelocityCollapse_matches_spec (messages : List Message) (o : VelocityOptions)
    (hw : 1 ≤ o.windowSize) :
    detectVelocityCollapse messages o = true ↔
      (o.windowSize * 2 ≤ (userMsgs messages).length ∧
       (velLengthTrigger messages o ∨
        (¬ velLengthTrigger messages o ∧ velFreqTrigger messages o))) :=
  detectVelocityCollapse_iff messages o hw

/-- Witness for C5 at a conversation whose message length collapses. -/
theorem detectVelocityCollapse_matches_spec_witness :
    detectVelocityCollapse velocityConv {} = true ↔
      (4 * 2 ≤ (userMsgs velocityConv).length ∧
       (velLengthTrigger velocityConv {} ∨
        (¬ velLengthTrigger velocityConv {} ∧ velFreqTrigger velocityConv {}))) :=
  detectVelocityCollapse_matches_spec velocityConv {} (by decide)

/-- C2 is refuted at ten empty-content user messages with default
options: both trigger conditions of the claim hold (the recent mean `0`
is at least `1.5` times the earlier mean `0`, and the question counts
are equal), and the window requirement is met, yet `detectScopeCreep`
returns false, because the float comparison is `NaN >= 1.5`. -/
theorem scopeCreep_claim_fails_on_empty_contents :
    detectScopeCreep emptyTenConv {} = false ∧
    5 * 2 ≤ (userMsgs emptyTenConv).length ∧
    ({} : ScopeCreepOptions).growthRatio * meanContentLength (scopeEarlierWindow 5 emptyTenConv) ≤
      meanContentLength (recentUserWindow 5 emptyTenConv) ∧
    questionCount (scopeEarlierWindow 5 emptyTenConv) ≤
      questionCount (recentUserWindow 5 emptyTenConv) :=
  ⟨by decide, by decide, by decide, by decide⟩

/-- C2 (amended): for `windowSize ≥ 1`, `detectScopeCreep` is true iff
the window requirement holds, the mean-length comparison holds in its
float form — either the earlier mean is zero and the recent mean is
positive (ratio `+Infinity`), or the earlier mean is positive and the
recent mean is at least `growthRatio` times it; both means zero gives
`NaN` and no trigger — and the recent window has at least as many
question-mark messages as the earlier window. -/
theorem detectScopeCreep_matches_amended_spec (messages : List Message) (o : ScopeCreepOptions)
    (hw : 1 ≤ o.windowSize) :
    detectScopeCreep messages o = true ↔
      (o.windowSize * 2 ≤ (userMsgs messages).length ∧
       ((meanContentLength (scopeEarlierWindow o.windowSize messages) = 0 ∧
         0 < meanContentLength (recentUserWindow o.windowSize messages)) ∨
        (0 < meanContentLength (scopeEarlierWindow o.windowSize messages) ∧
         o.growthRatio * meanContentLength (scopeEarlierWindow o.windowSize messages) ≤
           meanContentLength (recentUserWindow o.windowSize messages))) ∧
       questionCount (scopeEarlierWindow o.windowSize messages) ≤
         questionCount (recentUserWindow o.windowSize messages)) :=
  detectScopeCreep_iff messages o hw

/-- Witness for the amended C2 at a growing conversation. -/
theorem detectScopeCreep_matches_amended_spec_witness :
    detectScopeCreep growthConv {} = true ↔
      (5 * 2 ≤ (userMsgs growthConv).length ∧
       ((meanContentLength (scopeEarlierWindow 5 growthConv) = 0 ∧
         0 < meanContentLength (recentUserWindow 5 growthConv)) ∨
        (0 < meanContentLength (scopeEarlierWindow 5 growthConv) ∧
         (3 / 2 : ℚ) * meanContentLength (scopeEarlierWindow 5 growthConv) ≤
           meanContentLength (recentUserWindow 5 growthConv))) ∧
       questionCount (scopeEarlierWindow 5 growthConv) ≤
         questionCount (recentUserWindow 5 growthConv)) :=
  detectScopeCreep_matches_amended_spec growthConv {} (by decide)

/-- C3 is refuted: `detectSaturation` throws (modelled `none`) for the
options record with `assistantResponseThreshold = 0` even on the empty
conversation, and the unguarded scope-creep division by a zero earlier
mean produces a trigger (`Infinity >= growthRatio`) rather than a
defined no-trigger outcome. -/
theorem detectors_safety_claim_fails :
    detectSaturation [] { assistantResponseThreshold := 0 } = none ∧
    detectScopeCreep zeroDivConv {} = true ∧
    meanContentLength (scopeEarlierWindow 5 zeroDivConv) = 0 :=
  ⟨by decide, by decide, by decide⟩

/-- C3 (amended): `detectSaturation` is defined (never throws) whenever
`assistantResponseThreshold ≥ 1`; the cosine norms are guarded, a zero
norm yielding similarity `0`; and the unguarded scope-creep mean ratio
resolves to no-trigger when both window means are zero (`NaN`
comparison). The three always-total detectors return plain booleans by
construction. -/
theorem detectors_safety_amended :
    (∀ (messages : List Message) (o : SaturationOptions),
        1 ≤ o.assistantResponseThreshold → (detectSaturation messages o).isSome = true) ∧
    (∀ tokensA tokensB : List Token,
        magSqOver (allKeys tokensA tokensB) tokensA = 0 ∨
          magSqOver (allKeys tokensA tokensB) tokensB = 0 →
        cosineSimilarity tokensA tokensB = 0) ∧
    (∀ (messages : List Message) (o : ScopeCreepOptions),
        meanContentLength (sliceWindowBefore o.windowSize (userMsgs messages)) = 0 ∧
          meanContentLength (sliceLast o.windowSize (userMsgs messages)) = 0 →
        detectScopeCreep messages o = false) := by
  refine ⟨detectSaturation_isSome, cosineSimilarity_eq_zero, ?_⟩
  rintro messages o ⟨he, hr⟩
  simp only [meanContentLength] at he hr
  simp only [detectScopeCreep]
  split_ifs with h1 hj
  · rfl
  · exfalso
    unfold jsAvgRatioGE at hj
    split_ifs at hj with hemp
    rw [decide_eq_true_eq, hr] at hj
    exact lt_irrefl 0 hj
  · rfl

/-- Witness for the amended C3: a defined saturation run, the empty-token
similarity, and the all-empty scope-creep conversation. -/
theorem detectors_safety_amended_witness :
    (1 ≤ saturationOpts.assistantResponseThreshold ∧
      (detectSaturation saturationConv saturationOpts).isSome = true) ∧
    cosineSimilarity [] [] = 0 ∧
    ((meanContentLength (sliceWindowBefore 5 (userMsgs emptyTenConv)) = 0 ∧
        meanContentLength (sliceLast 5 (userMsgs emptyTenConv)) = 0) ∧
      detectScopeCreep emptyTenConv {} = false) :=
  ⟨⟨by decide, detectors_safety_amended.1 saturationConv saturationOpts (by decide)⟩,
   detectors_safety_amended.2.1 [] [] (Or.inl (by decide)),
   ⟨by decide, by decide⟩,
   detectors_safety_amended.2.2 emptyTenConv {} ⟨by decide, by decide⟩⟩

/-- C7: whenever either term-frequency vector has Euclidean norm zero,
cosine similarity is exactly `0`, a defined number. -/
theorem cosineSimilarity_zero_norm (tokensA tokensB : List Token)
    (h : Real.sqrt (magSqOver (allKeys tokensA tokensB) tokensA : ℝ) = 0 ∨
         Real.sqrt (magSqOver (allKeys tokensA tokensB) tokensB : ℝ) = 0) :
    cosineSimilarity tokensA tokensB = 0 := by
  refine cosineSimilarity_eq_zero tokensA tokensB ?_
  rcases h with h | h
  · left
    have h1 : ((magSqOver (allKeys tokensA tokensB) tokensA : ℕ) : ℝ) ≤ 0 :=
      Real.sqrt_eq_zero'.mp h
    exact_mod_cast le_antisymm h1 (Nat.cast_nonneg _)
  · right
    have h1 : ((magSqOver (allKeys tokensA tokensB) tokensB : ℕ) : ℝ) ≤ 0 :=
      Real.sqrt_eq_zero'.mp h
    exact_mod_cast le_antisymm h1 (Nat.cast_nonneg _)

/-- Witness for C7: two empty token sequences have similarity `0`. -/
theorem cosineSimilarity_zero_norm_witness : cosineSimilarity [] [] = 0 :=
  cosineSimilarity_zero_norm [] [] (Or.inl (by simp [magSqOver, allKeys]))

/-- C10: with `threshold := 1`, `detectLoop` fires as soon as one user
message exists; with `threshold := 0` it fires on every conversation,
the empty one included: the comparison window has no consecutive pair,
so the similarity condition holds vacuously. -/
theorem detectLoop_low_threshold (messages : List Message) :
    (1 ≤ (userMsgs messages).length → detectLoop messages { threshold := 1 } = true) ∧
    detectLoop messages { threshold := 0 } = true := by
  constructor
  · intro h
    rw [detectLoop_iff]
    rw [show ({ threshold := 1 } : LoopOptions).threshold = 1 from rfl]
    refine ⟨h, chain_of_length_le_one _ ?_⟩
    rw [lastWindow_length]
    omega
  · rw [detectLoop_iff]
    rw [show ({ threshold := 0 } : LoopOptions).threshold = 0 from rfl]
    refine ⟨Nat.zero_le _, ?_⟩
    rw [lastWindow_zero]
    exact List.chain'_nil

/-- Witness for C10 at a one-message conversation and, for the zero
threshold, the empty conversation. -/
theorem detectLoop_low_threshold_witness :
    (1 ≤ (userMsgs oneUserConv).length ∧
      detectLoop oneUserConv { threshold := 1 } = true) ∧
    detectLoop [] { threshold := 0 } = true :=
  ⟨⟨by decide, (detectLoop_low_threshold oneUserConv).1 (by decide)⟩,
   (detectLoop_low_threshold []).2⟩

theorem ite_singleton_sublist (c : Prop) [Decidable c] (a : α) :
    List.Sublist (if c then [a] else []) [a] := by
  split_ifs
  · exact List.Sublist.refl _
  · exact List.nil_sublist _

theorem mem_ite_singleton {x a : α} (c : Prop) [Decidable c] :
    x ∈ (if c then [a] else []) ↔ (c ∧ x = a) := by
  split_ifs with h
  · simp [h]
  · simp [h]

/-- C4: for `assistantResponseThreshold ≥ 1` (the claim presupposes the
threshold-th substantive message exists), `detectSaturation` returns
`some false` with fewer than threshold substantive assistant messages,
and otherwise returns exactly whether at least two user messages
strictly after the threshold-th substantive message match a request
pattern. -/
theorem detectSaturation_matches_spec (messages : List Message) (o : SaturationOptions)
    (ht : 1 ≤ o.assistantResponseThreshold) :
    ((substantiveMsgs messages o).length < o.assistantResponseThreshold →
        detectSaturation messages o = some false) ∧
    (∀ h : o.assistantResponseThreshold ≤ (substantiveMsgs messages o).length,
        detectSaturation messages o =
          some (decide (2 ≤ moreRequestCount messages o
            ((substantiveMsgs messages o).get
              ⟨o.assistantResponseThreshold - 1, by omega⟩).timestamp))) := by
  constructor
  · intro h
    simp only [detectSaturation]
    rw [if_pos h]
  · intro h
    simp only [detectSaturation]
    rw [if_neg (by omega)]
    have hidx : 0 ≤ (o.assistantResponseThreshold : Int) - 1 ∧
        ((o.assistantResponseThreshold : Int) - 1).toNat < (substantiveMsgs messages o).length := by
      omega
    rw [jsIndex, dif_pos hidx]
    split
    · rename_i heq
      exact absurd heq (by simp)
    · rename_i msg heq
      have hmsg : msg = (substantiveMsgs messages o).get
          ⟨o.assistantResponseThreshold - 1, by omega⟩ := by
        injection heq with heq2
        rw [← heq2]
        congr 1
        refine Fin.ext ?_
        show ((o.assistantResponseThreshold : Int) - 1).toNat = o.assistantResponseThreshold - 1
        omega
      subst hmsg
      simp only [moreRequestCount]
      by_cases hz : (List.filter (fun m =>
            m.role == Role.user &&
              decide (((substantiveMsgs messages o).get
                ⟨o.assistantResponseThreshold - 1, by omega⟩).timestamp < m.timestamp))
          messages).length = 0
      · rw [if_pos hz]
        simp only [List.length_eq_zero.mp hz, List.filter_nil, List.length_nil]
        simp
      · rw [if_neg hz]

/-- Witness for C4: one substantive reply then two matching requests. -/
theorem detectSaturation_matches_spec_witness :
    detectSaturation saturationConv saturationOpts = some true := by
  have h := (detectSaturation_matches_spec saturationConv saturationOpts (by decide)).2 (by decide)
  rw [h]
  decide

/-- C9: `detectLoop`, `detectVelocityCollapse` and `detectScopeCreep`
depend only on the user-authored subsequence of the conversation:
assistant messages have no influence on them. -/
theorem detectors_ignore_assistant_messages (m1 m2 : List Message)
    (ol : LoopOptions) (ov : VelocityOptions) (os : ScopeCreepOptions)
    (h : userMsgs m1 = userMsgs m2) :
    detectLoop m1 ol = detectLoop m2 ol ∧
    detectVelocityCollapse m1 ov = detectVelocityCollapse m2 ov ∧
    detectScopeCreep m1 os = detectScopeCreep m2 os := by
  refine ⟨?_, ?_, ?_⟩ <;>
    simp only [detectLoop, detectVelocityCollapse, detectScopeCreep, h]

/-- Witness for C9: removing the assistant message changes nothing. -/
theorem detectors_ignore_assistant_messages_witness :
    userMsgs mixedConv = userMsgs userOnlyConv ∧
    (detectLoop mixedConv {} = detectLoop userOnlyConv {} ∧
     detectVelocityCollapse mixedConv {} = detectVelocityCollapse userOnlyConv {} ∧
     detectScopeCreep mixedConv {} = detectScopeCreep userOnlyConv {}) :=
  ⟨by decide, detectors_ignore_assistant_messages mixedConv userOnlyConv {} {} {} (by decide)⟩

/-- C6: whenever `check` returns a `Result`, `triggered` is true iff
`signals` is non-empty; `signals` is a subsequence of the fixed tag
order loop, velocity-collapse, scope-creep, saturation; and each tag
appears iff the corresponding detector, run with its own options
sub-record, fired. -/
theorem check_matches_spec (messages : List Message) (o : CheckOptions) (r : Result)
    (h : check messages o = some r) :
    (r.triggered = true ↔ r.signals ≠ []) ∧
    List.Sublist r.signals ["loop", "velocity-collapse", "scope-creep", "saturation"] ∧
    ("loop" ∈ r.signals ↔ detectLoop messages o.loop = true) ∧
    ("velocity-collapse" ∈ r.signals ↔
      detectVelocityCollapse messages o.velocityCollapse = true) ∧
    ("scope-creep" ∈ r.signals ↔ detectScopeCreep messages o.scopeCreep = true) ∧
    ("saturation" ∈ r.signals ↔ detectSaturation messages o.saturation = some true) := by
  unfold check at h
  cases hs : detectSaturation messages o.saturation with
  | none =>
      rw [hs] at h
      exact absurd h (by simp)
  | some sat =>
      rw [hs] at h
      injection h with h
      subst h
      refine ⟨?_, ?_, ?_, ?_, ?_, ?_⟩
      · simp only [decide_eq_true_eq]
        exact List.length_pos
      · show List.Sublist _
          (["loop"] ++ ["velocity-collapse"] ++ ["scope-creep"] ++ ["saturation"])
        exact List.Sublist.append (List.Sublist.append (List.Sublist.append
          (ite_singleton_sublist _ _) (ite_singleton_sublist _ _))
          (ite_singleton_sublist _ _)) (ite_singleton_sublist _ _)
      · simp [mem_ite_singleton]
      · simp [mem_ite_singleton]
      · simp [mem_ite_singleton]
      · simp [mem_ite_singleton, hs]

/-- Witness for C6 at the empty conversation with default options. -/
theorem check_matches_spec_witness :
    ((false = true ↔ ([] : List String) ≠ []) ∧
     List.Sublist ([] : List String)
       ["loop", "velocity-collapse", "scope-creep", "saturation"] ∧
     ("loop" ∈ ([] : List String) ↔ detectLoop [] ({} : CheckOptions).loop = true) ∧
     ("velocity-collapse" ∈ ([] : List String) ↔
       detectVelocityCollapse [] ({} : CheckOptions).velocityCollapse = true) ∧
     ("scope-creep" ∈ ([] : List String) ↔
       detectScopeCreep [] ({} : CheckOptions).scopeCreep = true) ∧
     ("saturation" ∈ ([] : List String) ↔
       detectSaturation [] ({} : CheckOptions).saturation = some true)) :=
  check_matches_spec [] {} ⟨false, []⟩ rfl

/-- C8: every conversation whose user messages are exactly the three
rewrite requests of the loop scenario, in order and interleaved with any
assistant messages, makes `detectLoop` fire with default options, and
`check` reports the `loop` signal. -/
theorem loop_scenario_detected (messages : List Message)
    (h : (userMsgs messages).map (fun m => m.content) =
      ["Rewrite the intro paragraph", "Rewrite the intro paragraph differently",
       "Rewrite the intro paragraph again please"]) :
    detectLoop messages {} = true ∧
    ∃ r : Result, check messages {} = some r ∧ "loop" ∈ r.signals := by
  obtain ⟨m1, m2, m3, hu⟩ : ∃ m1 m2 m3, userMsgs messages = [m1, m2, m3] :=
    List.length_eq_three.mp (by simpa using congrArg List.length h)
  rw [hu] at h
  simp only [List.map_cons, List.map_nil, List.cons.injEq, and_true] at h
  obtain ⟨hc1, hc2, hc3⟩ := h
  have hdl : detectLoop messages {} = true := by
    rw [detectLoop_iff, hu]
    refine ⟨by simp, ?_⟩
    have hlw : lastWindow (({} : LoopOptions).threshold) [m1, m2, m3] = [m1, m2, m3] := by
      simp [lastWindow]
    rw [hlw]
    refine List.chain'_cons.mpr ⟨?_, List.chain'_cons.mpr ⟨?_, List.chain'_singleton _⟩⟩
    · rw [hc1, hc2]
      exact (le_cosineSimilarity_iff _ _ _ (by decide) (by decide)).mpr (by decide)
    · rw [hc2, hc3]
      exact (le_cosineSimilarity_iff _ _ _ (by decide) (by decide)).mpr (by decide)
  have hdl2 : detectLoop messages ({} : CheckOptions).loop = true := hdl
  refine ⟨hdl, ?_⟩
  obtain ⟨sat, hsat⟩ := Option.isSome_iff_exists.mp
    (detectSaturation_isSome messages ({} : CheckOptions).saturation (by decide))
  unfold check
  rw [hsat]
  exact ⟨_, rfl, by simp [hdl2]⟩

/-- Witness for C8 at the loop-scenario conversation itself. -/
theorem loop_scenario_detected_witness :
    detectLoop loopConv {} = true ∧
    ∃ r : Result, check loopConv {} = some r ∧ "loop" ∈ r.signals :=
  loop_scenario_detected loopConv (by decide)
